import Mathlib

/-!
Verification development for the Lebanon Water Springs dashboard
(`src/app.py`).  Python strings are embedded as lists of characters,
pandas numeric cells as rationals (`Option ℚ` before cleaning),
and the data-frame operations the claims depend on are translated
into executable Lean functions.
-/

/-- A Python string, embedded as its list of characters. -/
abbrev PyStr := List Char

/-- The Python notion of whitespace used by `str.strip()`. -/
def isPySpace (c : Char) : Bool :=
  c = ' ' || c = '\t' || c = '\n' || c = '\r' || c = '\x0b' || c = '\x0c'

/-- Python `str.strip()`: drop whitespace from both ends. -/
def pyStrip (s : PyStr) : PyStr :=
  ((s.dropWhile isPySpace).reverse.dropWhile isPySpace).reverse

/-- Python `str.replace("_", " ")`: a character-wise map since both arguments are single characters. -/
def underscoresToSpaces (s : PyStr) : PyStr :=
  s.map fun c => if c = '_' then ' ' else c

/-- The literal suffix `"_Governorate"` from the regex in `parse_ref_area` (app.py:37). -/
def GOV_SUF : PyStr := ['_', 'G', 'o', 'v', 'e', 'r', 'n', 'o', 'r', 'a', 't', 'e']

/-- The literal suffix `"_District"` from the regex in `parse_ref_area` (app.py:37). -/
def DIST_SUF : PyStr := ['_', 'D', 'i', 's', 't', 'r', 'i', 'c', 't']

/-- The part of `t` before a trailing suffix of length `suf.length` (regex group 1). -/
def stemOf (t suf : PyStr) : PyStr := t.take (t.length - suf.length)

/-- Function `parse_ref_area` (app.py:34-41).  A non-string cell (`None`/NaN/number,
embedded as `none`) yields `(NaN, "Other")`.  Otherwise the stripped string is
matched against `^(.*)_(Governorate|District)$`; because `.` does not match a
newline, the regex matches exactly when the stripped string ends with one of
the two suffixes and the part before the suffix contains no newline.  The
matched branch returns the de-underscored, stripped stem and the suffix; the
fallthrough returns the de-underscored, stripped original string and `"Other"`. -/
def parse_ref_area : Option PyStr → Option PyStr × PyStr
  | none => (none, "Other".toList)
  | some s =>
    if GOV_SUF <:+ pyStrip s ∧ '\n' ∉ stemOf (pyStrip s) GOV_SUF then
      (some (pyStrip (underscoresToSpaces (stemOf (pyStrip s) GOV_SUF))), "Governorate".toList)
    else if DIST_SUF <:+ pyStrip s ∧ '\n' ∉ stemOf (pyStrip s) DIST_SUF then
      (some (pyStrip (underscoresToSpaces (stemOf (pyStrip s) DIST_SUF))), "District".toList)
    else
      (some (pyStrip (underscoresToSpaces s)), "Other".toList)

/-- The refArea-derivation block (app.py:44-53): when the direct name columns
are absent, `GovernorateName`/`DistrictName` start as NaN and receive the
parsed `AreaName` exactly on the rows whose `AreaType` matches. -/
def deriveGeo (refArea : Option PyStr) : Option PyStr × Option PyStr :=
  let p := parse_ref_area refArea
  (if p.2 = "Governorate".toList then p.1 else none,
   if p.2 = "District".toList then p.1 else none)

/-- Lexicographic (code-point) order on Python strings, as used by `sorted()`. -/
def lexLe : PyStr → PyStr → Bool
  | [], _ => true
  | _ :: _, [] => false
  | a :: as, b :: bs => if a = b then lexLe as bs else decide (a < b)

/-- Insert into a sorted list (helper for `sortLe`). -/
def insertLe (le : α → α → Bool) (a : α) : List α → List α
  | [] => [a]
  | b :: bs => if le a b then a :: b :: bs else b :: insertLe le a bs

/-- Insertion sort by a boolean "less-or-equal" test. -/
def sortLe (le : α → α → Bool) : List α → List α
  | [] => []
  | a :: as => insertLe le a (sortLe le as)

/-- Series `areas_all` (app.py:163): the group-column values with NaN dropped
(`filterMap id`), de-duplicated (`unique`), empty strings removed (the `if a`
truthiness test), and sorted. -/
def areasAll (keys : List (Option PyStr)) : List PyStr :=
  sortLe lexLe (((keys.filterMap id).dedup).filter fun a => a ≠ [])

/-- Pandas `Series.replace` with a dict of scalars: exact-match lookup, unmatched
values pass through unchanged (app.py:64 and app.py:80). -/
def pdReplace (tbl : List (PyStr × PyStr)) (x : PyStr) : PyStr :=
  match tbl.find? (fun p => p.1 == x) with
  | some p => p.2
  | none => x

/-- Python `dict.get(key, default)` (app.py:135,140). -/
def pdGet (tbl : List (PyStr × PyStr)) (x dflt : PyStr) : PyStr :=
  match tbl.find? (fun p => p.1 == x) with
  | some p => p.2
  | none => dflt

/-- Table `gov_std` (app.py:63): governorate spelling normalization. -/
def gov_std : List (PyStr × PyStr) :=
  [("North".toList, "North Lebanon".toList),
   ("South".toList, "South Lebanon".toList),
   ("Beqaa".toList, "Bekaa".toList)]

/-- Constant `TARGET_MINIEH` (app.py:67). -/
def TARGET_MINIEH : PyStr := "Minieh - Danniyeh".toList

/-- Table `DISTRICT_ALIASES` (app.py:68-79), with each mis-encoded key reproduced
character for character from the source file. -/
def DISTRICT_ALIASES : List (PyStr × PyStr) :=
  [("Miniyehâ\u0080\u0093Danniyeh".toList, TARGET_MINIEH),
   ("Miniyeh—Danniyeh".toList, TARGET_MINIEH),
   ("Minieh-Danniyeh".toList, TARGET_MINIEH),
   ("MiniyehÃ¢Â€Â“Danniyeh".toList, TARGET_MINIEH),
   ("Minieh—Danniyeh".toList, TARGET_MINIEH),
   ("ZahlÃ©".toList, "Zahle".toList),
   ("Zahlé".toList, "Zahle".toList),
   ("Bint Jbail".toList, "Bint Jbeil".toList),
   ("Jbeil".toList, "Byblos".toList),
   ("Saida".toList, "Sidon".toList),
   ("Sour".toList, "Tyre".toList)]

/-- Numeric cleaning (app.py:100-102): `pd.to_numeric(col, errors="coerce").fillna(0)`.
A cell is embedded as its parse result — `some q` when the cell holds (or
parses to) the number `q`, `none` when it is missing or unparseable — and
cleaning replaces the missing/unparseable case by `0`. -/
def cleanNumeric (cell : Option ℚ) : ℚ := cell.getD 0

/-- Table `GOV_BUCKET` (app.py:108-118). -/
def GOV_BUCKET : List (PyStr × PyStr) :=
  [("Beirut".toList, "Urban".toList),
   ("Mount Lebanon".toList, "Urban".toList),
   ("North Lebanon".toList, "Urban".toList),
   ("Bekaa".toList, "Rural/Agri".toList),
   ("Baalbek-Hermel".toList, "Rural/Agri".toList),
   ("Nabatieh".toList, "Rural/Agri".toList),
   ("El Nabatieh".toList, "Rural/Agri".toList),
   ("Akkar".toList, "Rural/Agri".toList),
   ("South Lebanon".toList, "Rural/Agri".toList)]

/-- Set `URBAN_DISTRICTS` (app.py:120-123); a Python set, embedded as a list since
only membership is used. -/
def URBAN_DISTRICTS : List PyStr :=
  ["Tripoli".toList, "Sidon".toList, "Tyre".toList, "Baabda".toList,
   "Metn".toList, "Aley".toList, "Keserwan".toList, "Chouf".toList,
   "Zahle".toList, "Byblos".toList, "Matn".toList, "Jbeil".toList]

/-- Set `RURAL_DISTRICTS` (app.py:124-129). -/
def RURAL_DISTRICTS : List PyStr :=
  ["Baalbek".toList, "Hermel".toList, "West Bekaa".toList, "Rachaya".toList,
   "Bint Jbeil".toList, "Marjeyoun".toList, "Hasbaya".toList, "Jezzine".toList,
   TARGET_MINIEH,
   "Bcharre".toList, "Koura".toList, "Batroun".toList, "Zgharta".toList,
   "Akkar".toList]

/-- Python `str(cell)` for a possibly-missing cell: Python renders NaN as `"nan"`. -/
def pyStrOfCell (c : Option PyStr) : PyStr := c.getD "nan".toList

/-- Function `area_bucket` (app.py:131-140). -/
def area_bucket (gov dist : Option PyStr) (level : String) : PyStr :=
  if level = "Governorate" then pdGet GOV_BUCKET (pyStrip (pyStrOfCell gov)) "Rural/Agri".toList
  else if pyStrip (pyStrOfCell dist) ∈ URBAN_DISTRICTS then "Urban".toList
  else if pyStrip (pyStrOfCell dist) ∈ RURAL_DISTRICTS then "Rural/Agri".toList
  else pdGet GOV_BUCKET (pyStrip (pyStrOfCell gov)) "Rural/Agri".toList

/-- numpy/pandas rounding to an integer: round-half-to-even. -/
def roundHalfEven (q : ℚ) : ℤ :=
  if q - ⌊q⌋ < 1 / 2 then ⌊q⌋
  else if (1 : ℚ) / 2 < q - ⌊q⌋ then ⌊q⌋ + 1
  else if ⌊q⌋ % 2 = 0 then ⌊q⌋ else ⌊q⌋ + 1

/-- Pandas `Series.round(1)` (app.py:341). -/
def pdRound1 (q : ℚ) : ℚ := (roundHalfEven (q * 10) : ℚ) / 10

/-- Pandas `Series.round(2)` (app.py:237-238). -/
def pdRound2 (q : ℚ) : ℚ := (roundHalfEven (q * 100) : ℚ) / 100

/-- One aggregate row of the `spr` frame (app.py:231): a group key with its
summed permanent and seasonal spring counts. -/
structure SprRow where
  area : PyStr
  perm : ℚ
  seas : ℚ
deriving DecidableEq

/-- The options offered by the "Pyramid sorting" selectbox (app.py:204-212). -/
def pyramidSortOpts : List String := ["Total springs", "Seasonal only", "Permanent only"]

/-- Pandas `DataFrame.sort_values(col, ascending=asc)`: pandas computes an ascending
order and, for `ascending=False`, reverses the resulting indexer. -/
def sort_values (key : α → ℚ) (asc : Bool) (l : List α) : List α :=
  let s := sortLe (fun a b => decide (key a ≤ key b)) l
  if asc then s else s.reverse

/-- The pyramid sort dispatch (app.py:243-250): `Total` is the sum of the two
spring columns; an option matching no branch leaves the frame unsorted. -/
def sortSpr (opt : String) (asc : Bool) (l : List SprRow) : List SprRow :=
  if opt = "Total springs" then sort_values (fun r => r.perm + r.seas) asc l
  else if opt = "Seasonal only" then sort_values (fun r => r.seas) asc l
  else if opt = "Permanent only" then sort_values (fun r => r.perm) asc l
  else l

/-- Pandas `DataFrame.tail(n)` (app.py:252,346): the last `n` rows, the whole frame
when `n` exceeds its length. -/
def pdTail (n : ℕ) (l : List α) : List α := l.drop (l.length - n)

/-- Function `safe_topn_slider` (app.py:192-197): stops (returns no value) when there is
nothing to rank, otherwise yields the slider value, which the widget clamps to
`[1, n_items]`. -/
def safe_topn_slider (nItems req : ℕ) : Option ℕ :=
  if nItems = 0 then none else some (min (max 1 req) nItems)

/-- Pandas `Series.nunique()` for the `Town` column (app.py:234). -/
def town_nunique (ts : List PyStr) : ℕ := ts.dedup.length

/-- An aggregate springs row together with its distinct-town count
(the `Towns` column merged in at app.py:234-235). -/
structure SprGroup where
  area : PyStr
  perm : ℚ
  seas : ℚ
  towns : ℕ
deriving DecidableEq

/-- The per-town-average branch (app.py:236-238): a zero town count is
replaced by NaN (`none`), and each spring sum is divided by the count and
rounded to two decimals; a NaN denominator propagates to NaN values. -/
def perTownVals (g : SprGroup) : Option ℚ × Option ℚ :=
  if g.towns = 0 then (none, none)
  else (some (pdRound2 (g.perm / g.towns)), some (pdRound2 (g.seas / g.towns)))

/-- The display-mode dispatch (app.py:233-241): the per-town branch runs only
when the mode is selected *and* a `Town` column exists (`HAS_TOWN`, app.py:58);
otherwise the summed totals are kept. -/
def sprValues (mode : String) (hasTown : Bool) (g : SprGroup) : Option ℚ × Option ℚ :=
  if mode = "Per-town average" ∧ hasTown then perTownVals g
  else (some g.perm, some g.seas)

/-- One aggregate row of the `net` frame (app.py:337): summed good /
acceptable / bad network-condition values for one group. -/
structure NetAgg where
  area : PyStr
  good : ℚ
  acc : ℚ
  bad : ℚ
deriving DecidableEq

/-- The percentage conversion of one aggregate row (app.py:339-341): the row
sum is replaced by NaN when zero (`replace(0, np.nan)`), so the three shares
are all NaN (`none`) for a zero-total row; otherwise each category is divided
by the row sum, scaled to 100 and rounded to one decimal. -/
def netShare (r : NetAgg) : Option (ℚ × ℚ × ℚ) :=
  if r.good + r.acc + r.bad = 0 then none
  else some (pdRound1 (r.good / (r.good + r.acc + r.bad) * 100),
             pdRound1 (r.acc / (r.good + r.acc + r.bad) * 100),
             pdRound1 (r.bad / (r.good + r.acc + r.bad) * 100))

/-- Frame `net_pct` (app.py:339-342): the percentage view keeps one output row per
aggregate row, pairing the group key with its (possibly NaN) shares. -/
def net_pct (l : List NetAgg) : List (PyStr × Option (ℚ × ℚ × ℚ)) :=
  l.map fun r => (r.area, netShare r)

/-! ## Helper lemmas -/

theorem abs_roundHalfEven_sub_le (q : ℚ) : |(roundHalfEven q : ℚ) - q| ≤ 1 / 2 := by
  have h1 : (⌊q⌋ : ℚ) ≤ q := Int.floor_le q
  have h2 : q < ⌊q⌋ + 1 := Int.lt_floor_add_one q
  unfold roundHalfEven
  split_ifs with ha hb hc
  all_goals rw [abs_le]; constructor <;> push_cast <;> linarith

theorem abs_pdRound1_sub_le (x : ℚ) : |pdRound1 x - x| ≤ 1 / 20 := by
  have h := abs_roundHalfEven_sub_le (x * 10)
  have hx : pdRound1 x - x = ((roundHalfEven (x * 10) : ℚ) - x * 10) / 10 := by
    unfold pdRound1; ring
  rw [hx, abs_div, abs_of_pos (show (0 : ℚ) < 10 by norm_num)]
  linarith

theorem pdReplace_idem_of (tbl : List (PyStr × PyStr))
    (h : ∀ p ∈ tbl, tbl.find? (fun q => q.1 == p.2) = none) (x : PyStr) :
    pdReplace tbl (pdReplace tbl x) = pdReplace tbl x := by
  rcases hf : tbl.find? (fun p => p.1 == x) with _ | p
  · simp [pdReplace, hf]
  · have hp : p ∈ tbl := List.mem_of_find?_eq_some hf
    simp [pdReplace, hf, h p hp]

theorem pdGet_gov_two (g : PyStr) :
    pdGet GOV_BUCKET g "Rural/Agri".toList = "Urban".toList ∨
    pdGet GOV_BUCKET g "Rural/Agri".toList = "Rural/Agri".toList := by
  rcases hf : GOV_BUCKET.find? (fun p => p.1 == g) with _ | p
  · right; simp [pdGet, hf]
  · have hp : p ∈ GOV_BUCKET := List.mem_of_find?_eq_some hf
    have hv : ∀ q ∈ GOV_BUCKET, q.2 = "Urban".toList ∨ q.2 = "Rural/Agri".toList := by decide
    simpa [pdGet, hf] using hv p hp

/-! ## Claims -/

/-- C1 counterexample: the pyramid ranking stage does not offer `gap` or
`ratio` sort keys — its selectbox holds exactly the three options at
app.py:204-212 — and forcing the unknown key "gap" through the sort dispatch
leaves the frame unsorted, so the claimed example (gap descending, top-1)
yields `[B]`, not `[A]`. -/
theorem c1_gap_ratio_counterexample :
    ("gap" ∉ pyramidSortOpts ∧ "ratio" ∉ pyramidSortOpts) ∧
    pdTail 1 (sortSpr "gap" false [⟨"A".toList, 10, 40⟩, ⟨"B".toList, 30, 30⟩])
      = [⟨"B".toList, 30, 30⟩] ∧
    pdTail 1 (sortSpr "gap" false [⟨"A".toList, 10, 40⟩, ⟨"B".toList, 30, 30⟩])
      ≠ [⟨"A".toList, 10, 40⟩] := by
  refine ⟨by constructor <;> decide, ?_, ?_⟩ <;>
    norm_num +decide [sortSpr, sort_values, sortLe, insertLe, pdTail]

/-- C1 (amended): the ranking stage offers exactly the sort keys
"Total springs", "Seasonal only" and "Permanent only" (no gap/ratio), and for
governorates A (permanent=10, seasonal=40) and B (permanent=30, seasonal=30),
sorting by "Total springs" descending and windowing to top-1 yields `[A]`. -/
theorem c1_offered_sort_keys :
    pyramidSortOpts = ["Total springs", "Seasonal only", "Permanent only"] ∧
    pdTail 1 (sortSpr "Total springs" false [⟨"A".toList, 10, 40⟩, ⟨"B".toList, 30, 30⟩])
      = [⟨"A".toList, 10, 40⟩] := by
  refine ⟨rfl, ?_⟩
  norm_num +decide [sortSpr, sort_values, sortLe, insertLe, pdTail]

/-- C3 counterexample: the cleaning step `to_numeric(..., errors="coerce").fillna(0)`
does not clamp negatives — a cell that parses to −5 stays −5 after cleaning,
so a negative value does reach aggregation, contradicting the claim that every
cleaned numeric field is ≥ 0. -/
theorem c3_negative_counterexample :
    cleanNumeric (some (-5)) = -5 ∧ cleanNumeric (some (-5)) < 0 := by
  constructor <;> norm_num [cleanNumeric]

/-- C3 (amended): after cleaning, a missing or unparseable numeric cell
becomes 0 (never null), and the cleaned value is ≥ 0 provided every parseable
input value is ≥ 0; negative parseable values pass through unchanged. -/
theorem c3_clean_defaults (c : Option ℚ) (h : ∀ q, c = some q → 0 ≤ q) :
    cleanNumeric none = 0 ∧ 0 ≤ cleanNumeric c := by
  refine ⟨rfl, ?_⟩
  cases c with
  | none => simp [cleanNumeric]
  | some q => simpa [cleanNumeric] using h q rfl

/-- C3 witness: the amended cleaning invariant evaluated at the parseable
nonnegative cell 3. -/
theorem c3_clean_defaults_witness : cleanNumeric none = 0 ∧ 0 ≤ cleanNumeric (some 3) :=
  c3_clean_defaults (some 3) (by rintro q hq; injection hq with h; subst h; norm_num)

/-- C7: both alias passes (`gov_std` at app.py:63-64 and `DISTRICT_ALIASES`
at app.py:67-80, applied via `Series.replace`) are idempotent on every
spelling, and a spelling with no alias entry passes through unchanged. -/
theorem c7_alias_idempotent (x : PyStr) :
    pdReplace gov_std (pdReplace gov_std x) = pdReplace gov_std x
    ∧ pdReplace DISTRICT_ALIASES (pdReplace DISTRICT_ALIASES x) = pdReplace DISTRICT_ALIASES x
    ∧ (gov_std.find? (fun p => p.1 == x) = none → pdReplace gov_std x = x)
    ∧ (DISTRICT_ALIASES.find? (fun p => p.1 == x) = none → pdReplace DISTRICT_ALIASES x = x) := by
  refine ⟨pdReplace_idem_of _ (by decide) x, pdReplace_idem_of _ (by decide) x, ?_, ?_⟩
  · intro h; simp [pdReplace, h]
  · intro h; simp [pdReplace, h]

/-- C7 witness: idempotence evaluated at the known alias "Saida" and
pass-through evaluated at the unknown spelling "Zgharta". -/
theorem c7_alias_idempotent_witness :
    pdReplace DISTRICT_ALIASES (pdReplace DISTRICT_ALIASES "Saida".toList)
      = pdReplace DISTRICT_ALIASES "Saida".toList
    ∧ pdReplace gov_std "Zgharta".toList = "Zgharta".toList :=
  ⟨(c7_alias_idempotent "Saida".toList).2.1,
   (c7_alias_idempotent "Zgharta".toList).2.2.1 (by decide)⟩

/-- C9: `parse_ref_area` is total over arbitrary cells — a non-string input
(NaN or a number, embedded as `none`) yields `(NaN, "Other")` without raising,
the derived governorate and district names of such a row are both NaN, and a
NaN group key contributes nothing to the area list used for aggregation. -/
theorem c9_nonstring_total :
    parse_ref_area none = (none, "Other".toList)
    ∧ deriveGeo none = (none, none)
    ∧ ∀ rest : List (Option PyStr), areasAll (none :: rest) = areasAll rest := by
  refine ⟨rfl, by decide, fun rest => rfl⟩

/-- C10: the urban/rural bucket classification is total with values in exactly
{Urban, Rural/Agri}: every row at either aggregation level is classified into
one of the two (distinct) buckets, so the "Urban only" and
"Agriculture/Rural only" filters partition all rows under "All areas". -/
theorem c10_bucket_total (gov dist : Option PyStr) (level : String) :
    (area_bucket gov dist level = "Urban".toList
      ∨ area_bucket gov dist level = "Rural/Agri".toList)
    ∧ ("Urban".toList : PyStr) ≠ "Rural/Agri".toList := by
  refine ⟨?_, by decide⟩
  unfold area_bucket
  split_ifs with h1 h2 h3
  · exact pdGet_gov_two _
  · left; rfl
  · right; rfl
  · exact pdGet_gov_two _

/-- C2 counterexample: an aggregate row whose category total is zero is *not*
excluded from the percentage view — `net_pct` keeps one output row per
aggregate row, and the zero-total row is rendered with NaN (undefined) shares
(app.py:340-341 replaces the zero row-sum by NaN and divides). -/
theorem c2_zero_row_counterexample :
    net_pct [⟨"Z".toList, 0, 0, 0⟩] = [("Z".toList, none)]
    ∧ (net_pct [⟨"Z".toList, 0, 0, 0⟩]).length = 1 := by
  constructor
  · simp [net_pct, netShare]
  · simp [net_pct]

/-- C2 (amended): for every aggregate row whose category total is nonzero the
three output shares sum to 100 within the 0.1-rounding tolerance (±0.15), and
a row with zero category total is kept in the percentage output with NaN
(undefined) shares rather than excluded or crashing. -/
theorem c2_share_row (r : NetAgg) :
    (r.good + r.acc + r.bad = 0 → netShare r = none)
    ∧ (∀ g a b, netShare r = some (g, a, b) → |g + a + b - 100| ≤ 3 / 20) := by
  constructor
  · intro h; simp [netShare, h]
  · intro g a b h
    unfold netShare at h
    by_cases ht : r.good + r.acc + r.bad = 0
    · simp [ht] at h
    · rw [if_neg ht, Option.some.injEq, Prod.mk.injEq, Prod.mk.injEq] at h
      obtain ⟨hg, ha, hb⟩ := h
      subst hg ha hb
      have hsum : r.good / (r.good + r.acc + r.bad) * 100
          + r.acc / (r.good + r.acc + r.bad) * 100
          + r.bad / (r.good + r.acc + r.bad) * 100 = 100 := by
        field_simp
        ring
      have h1 := abs_pdRound1_sub_le (r.good / (r.good + r.acc + r.bad) * 100)
      have h2 := abs_pdRound1_sub_le (r.acc / (r.good + r.acc + r.bad) * 100)
      have h3 := abs_pdRound1_sub_le (r.bad / (r.good + r.acc + r.bad) * 100)
      rw [abs_le] at h1 h2 h3 ⊢
      constructor <;> linarith

/-- C2 witness: the zero-total row is kept with undefined shares, and a
concrete nonzero row (30/30/40) has shares summing to 100 exactly. -/
theorem c2_share_row_witness :
    netShare ⟨"Z".toList, 0, 0, 0⟩ = none ∧ |(30 : ℚ) + 30 + 40 - 100| ≤ 3 / 20 :=
  ⟨(c2_share_row ⟨"Z".toList, 0, 0, 0⟩).1 (by norm_num),
   (c2_share_row ⟨"X".toList, 30, 30, 40⟩).2 30 30 40
     (by norm_num [netShare, pdRound1, roundHalfEven])⟩

theorem insertLe_length (le : α → α → Bool) (a : α) (l : List α) :
    (insertLe le a l).length = l.length + 1 := by
  induction l with
  | nil => rfl
  | cons b bs ih => simp only [insertLe]; split_ifs <;> simp [ih]

theorem sortLe_length (le : α → α → Bool) (l : List α) :
    (sortLe le l).length = l.length := by
  induction l with
  | nil => rfl
  | cons a as ih => simp [sortLe, insertLe_length, ih]

theorem sort_values_length (key : α → ℚ) (asc : Bool) (l : List α) :
    (sort_values key asc l).length = l.length := by
  unfold sort_values
  split_ifs <;> simp [sortLe_length]

theorem sortSpr_length (opt : String) (asc : Bool) (l : List SprRow) :
    (sortSpr opt asc l).length = l.length := by
  unfold sortSpr
  split_ifs <;> simp [sort_values_length]

/-- C5: top-N windowing takes the `tail` of the sorted sequence regardless of
the direction flag: the window is a suffix of the sorted frame, its length is
exactly `min N (number of groups)` — never more rows than groups, never fewer
than `min N #groups` — an `N` at or above the group count returns the whole
frame, and the slider helper clamps the requested `N` into `[1, #groups]`
instead of raising. -/
theorem c5_windowing (opt : String) (asc : Bool) (n req : ℕ) (l : List SprRow)
    (hl : 0 < l.length) :
    (pdTail n (sortSpr opt asc l)).length = min n l.length
    ∧ pdTail n (sortSpr opt asc l) <:+ sortSpr opt asc l
    ∧ (l.length ≤ n → pdTail n (sortSpr opt asc l) = sortSpr opt asc l)
    ∧ (∃ k, safe_topn_slider l.length req = some k ∧ 1 ≤ k ∧ k ≤ l.length) := by
  have hlen := sortSpr_length opt asc l
  refine ⟨?_, List.drop_suffix _ _, ?_, ?_⟩
  · simp only [pdTail, List.length_drop, hlen]; omega
  · intro h
    simp [pdTail, hlen, Nat.sub_eq_zero_of_le h]
  · refine ⟨min (max 1 req) l.length, ?_, by omega, by omega⟩
    rw [safe_topn_slider, if_neg (by omega)]

/-- C5 witness: windowing evaluated on a concrete two-group frame with a
requested N of 5 (above the group count) and a slider request of 9. -/
theorem c5_windowing_witness :
    (pdTail 5 (sortSpr "Total springs" false
      [⟨"A".toList, 10, 40⟩, ⟨"B".toList, 30, 30⟩])).length = min 5 2
    ∧ (∃ k, safe_topn_slider 2 9 = some k ∧ 1 ≤ k ∧ k ≤ 2) := by
  have h := c5_windowing "Total springs" false 5 9
    [⟨"A".toList, 10, 40⟩, ⟨"B".toList, 30, 30⟩] (by decide)
  exact ⟨h.1, h.2.2.2⟩

theorem not_gov_suffix_of_dist (q : PyStr) : ¬ GOV_SUF <:+ q ++ DIST_SUF := by
  rintro ⟨u, hu⟩
  have h1 : (u ++ GOV_SUF).getLast? = GOV_SUF.getLast? :=
    List.getLast?_append_of_ne_nil u (by decide)
  have h2 : (q ++ DIST_SUF).getLast? = DIST_SUF.getLast? :=
    List.getLast?_append_of_ne_nil q (by decide)
  rw [hu, h2] at h1
  exact absurd h1 (by decide)

theorem stemOf_append (p suf : PyStr) : stemOf (p ++ suf) suf = p := by
  rw [stemOf, List.length_append, Nat.add_sub_cancel, List.take_left]

/-- C6: when geography is derived from the composite identifier, a stripped
identifier ending in `_Governorate` (resp. `_District`) splits into its stem —
with underscores replaced by spaces and stripped — as the area name and the
suffix as the area type; an identifier matching neither suffix is tagged
"Other"; in particular `"Akkar_Governorate"` yields area name `"Akkar"` and
area type Governorate. -/
theorem c6_refarea_derivation (p q : PyStr)
    (hp1 : pyStrip (p ++ GOV_SUF) = p ++ GOV_SUF) (hp2 : '\n' ∉ p)
    (hq1 : pyStrip (q ++ DIST_SUF) = q ++ DIST_SUF) (hq2 : '\n' ∉ q) :
    parse_ref_area (some (p ++ GOV_SUF))
      = (some (pyStrip (underscoresToSpaces p)), "Governorate".toList)
    ∧ parse_ref_area (some (q ++ DIST_SUF))
      = (some (pyStrip (underscoresToSpaces q)), "District".toList)
    ∧ (∀ s : PyStr, ¬ GOV_SUF <:+ pyStrip s → ¬ DIST_SUF <:+ pyStrip s →
        (parse_ref_area (some s)).2 = "Other".toList)
    ∧ parse_ref_area (some "Akkar_Governorate".toList)
      = (some "Akkar".toList, "Governorate".toList) := by
  refine ⟨?_, ?_, ?_, by decide⟩
  · simp only [parse_ref_area, hp1, stemOf_append]
    rw [if_pos ⟨List.suffix_append p GOV_SUF, hp2⟩]
  · simp only [parse_ref_area, hq1, stemOf_append]
    rw [if_neg (fun hc => not_gov_suffix_of_dist q hc.1),
        if_pos ⟨List.suffix_append q DIST_SUF, hq2⟩]
  · intro s hg hd
    simp only [parse_ref_area]
    rw [if_neg (fun hc => hg hc.1), if_neg (fun hc => hd hc.1)]

/-- C6 witness: the derivation applied to the stems "Akkar" (governorate) and
"Matn" (district). -/
theorem c6_refarea_derivation_witness :
    parse_ref_area (some ("Akkar".toList ++ GOV_SUF))
      = (some (pyStrip (underscoresToSpaces "Akkar".toList)), "Governorate".toList)
    ∧ parse_ref_area (some ("Matn".toList ++ DIST_SUF))
      = (some (pyStrip (underscoresToSpaces "Matn".toList)), "District".toList) := by
  have h := c6_refarea_derivation "Akkar".toList "Matn".toList
    (by decide) (by decide) (by decide) (by decide)
  exact ⟨h.1, h.2.1⟩

/-- C8: per-town average mode divides the summed springs of each group by the
distinct-town count of that group; a zero town count yields NaN (undefined,
non-plottable) values rather than a crash; with no `Town` column the mode
falls back to the summed totals; and permanent=100 over 4 distinct towns
yields exactly 25.00. -/
theorem c8_per_town (mode : String) (g : SprGroup) :
    sprValues mode false g = (some g.perm, some g.seas)
    ∧ (g.towns = 0 → sprValues "Per-town average" true g = (none, none))
    ∧ (sprValues "Per-town average" true
        ⟨"G".toList, 100, g.seas,
          town_nunique ["t1".toList, "t2".toList, "t3".toList, "t4".toList]⟩).1
      = some 25 := by
  refine ⟨by simp [sprValues], ?_, ?_⟩
  · intro h
    simp +decide [sprValues, perTownVals, h]
  · have ht : town_nunique ["t1".toList, "t2".toList, "t3".toList, "t4".toList] = 4 := by
      decide
    simp +decide only [sprValues, perTownVals, ht]
    norm_num [pdRound2, roundHalfEven]

/-- C8 witness: totals fallback without a town column, and the undefined
result for a zero town count. -/
theorem c8_per_town_witness :
    sprValues "Totals" false ⟨"X".toList, 7, 9, 3⟩ = (some 7, some 9)
    ∧ sprValues "Per-town average" true ⟨"X".toList, 7, 9, 0⟩ = (none, none) :=
  ⟨(c8_per_town "Totals" ⟨"X".toList, 7, 9, 3⟩).1,
   (c8_per_town "Totals" ⟨"X".toList, 7, 9, 0⟩).2.1 rfl⟩
